import Mathlib

/-!
# Historical Uniswap-V2 backfill scraper

A shallow embedding of `internal/pkg/exchange-scrapers/UniswapV2ScraperHistory.go`:
the window cursor of `fetchTrades`, the pair registry (`GetPairByAddress`,
`GetPairByID`, `GetAllPairs`), the per-swap trade construction and the
`Close` guard.  Unsigned 64-bit block numbers are natural numbers reduced
modulo `2 ^ 64` wherever the Go code adds or subtracts.
-/

namespace UniswapHistory

/-! ## Block windows of `fetchTrades` -/

/-- Modulus of Go's `uint64` arithmetic. -/
def u64 : Nat := 2 ^ 64

/-- The constant `filterQueryBlockNums` of the source. -/
def filterQueryBlockNums : Nat := 1000

/-- The two loop variables `startblock` and `endblock` of `fetchTrades`. -/
structure Cursor where
  startblock : Nat
  endblock : Nat
  deriving DecidableEq, Repr

/-- How the loop body treats the result of one `GetSwapsIterator` call. -/
inductive QueryOutcome where
  | success
  | sizeLimit
  | transient
  deriving DecidableEq, Repr

/-- Loop entry: `startblock := blockInit; endblock := startblock + filterQueryBlockNums`. -/
def initCursor (blockInit : Nat) : Cursor :=
  { startblock := blockInit, endblock := (blockInit + filterQueryBlockNums) % u64 }

/-- The size-limit branch: `endblock = startblock + (endblock-startblock)/2`, then `continue`. -/
def shrink (c : Cursor) : Cursor :=
  { startblock := c.startblock,
    endblock := (c.startblock + ((c.endblock + u64 - c.startblock) % u64) / 2) % u64 }

/-- The tail of a successful iteration: `startblock = endblock; endblock = startblock + filterQueryBlockNums`. -/
def advance (c : Cursor) : Cursor :=
  { startblock := c.endblock, endblock := (c.endblock + filterQueryBlockNums) % u64 }

/-- One pass through the loop body, by the outcome of the query. -/
def step (c : Cursor) : QueryOutcome → Cursor
  | QueryOutcome.success => advance c
  | QueryOutcome.sizeLimit => shrink c
  | QueryOutcome.transient => c

/-- Width `endblock - startblock` of the window held by a cursor. -/
def width (c : Cursor) : Nat := c.endblock - c.startblock

/-- Whether the `uint64` addition performed by a pass of the loop body stays below `2 ^ 64`. -/
def stepFits (c : Cursor) : QueryOutcome → Prop
  | QueryOutcome.success => c.endblock + filterQueryBlockNums < u64
  | QueryOutcome.sizeLimit => c.startblock + ((c.endblock + u64 - c.startblock) % u64) / 2 < u64
  | QueryOutcome.transient => True

/-- Every addition along a sequence of passes, started at `c`, stays below `2 ^ 64`. -/
def allFit : Cursor → List QueryOutcome → Prop
  | _, [] => True
  | c, o :: os => stepFits c o ∧ allFit (step c o) os

/-- The cursor reached from `c` after the given sequence of query outcomes. -/
def runOutcomes (c : Cursor) (os : List QueryOutcome) : Cursor :=
  os.foldl step c

/-! ## Data model -/

/-- Rendering of the zero `common.Address`, the value of an address that was never set. -/
def zeroAddress : String := "0x0000000000000000000000000000000000000000"

/-- Values of Go's `float64` as far as comparisons see them: not-a-number, the two
infinities and the finite values (both zeros are `fin 0`). -/
inductive F64 where
  | nan
  | negInf
  | posInf
  | fin (q : ℚ)
  deriving DecidableEq

namespace F64

/-- The comparison `x > 0` on `float64`. -/
def gtZero : F64 → Bool
  | posInf => true
  | fin q => decide (0 < q)
  | _ => false

/-- The comparison `x == 0` on `float64`. -/
def eqZero : F64 → Bool
  | fin q => decide (q = 0)
  | _ => false

/-- The quotient `1 / x` on `float64` values, up to rounding of finite results. -/
def inv : F64 → F64
  | nan => nan
  | negInf => fin 0
  | posInf => fin 0
  | fin q => if q = 0 then posInf else fin (1 / q)

end F64

/-- The type `UniswapToken`; an address is held as its `Hex()` rendering. -/
structure UniswapToken where
  Address : String
  Symbol : String
  Decimals : Nat
  Name : String
  deriving DecidableEq

/-- The type `UniswapPair`. -/
structure UniswapPair where
  Token0 : UniswapToken
  Token1 : UniswapToken
  ForeignName : String
  Address : String
  deriving DecidableEq

/-- The zero value `UniswapToken{}`. -/
def emptyToken : UniswapToken :=
  { Address := zeroAddress, Symbol := "", Decimals := 0, Name := "" }

/-- The zero value `UniswapPair{}`. -/
def emptyPair : UniswapPair :=
  { Token0 := emptyToken, Token1 := emptyToken, ForeignName := "", Address := zeroAddress }

/-- The fields of `dia.Asset` that the scraper fills. -/
structure Asset where
  Address : String
  Symbol : String
  Name : String
  Decimals : Nat
  Blockchain : String
  deriving DecidableEq

/-- The fields of `dia.ExchangePair` that the scraper reads. -/
structure ExchangePair where
  Symbol : String
  ForeignName : String
  deriving DecidableEq

/-- The fields of `dia.Trade` that the scraper fills. -/
structure Trade where
  Symbol : String
  Pair : String
  Price : F64
  Volume : F64
  BaseToken : Asset
  QuoteToken : Asset
  Time : Int
  ForeignTradeID : String
  Source : String
  VerifiedPair : Bool
  deriving DecidableEq

/-- A raw `Swap` log entry (`uniswap.UniswapV2PairSwap`): unscaled amounts and the
address, block number and transaction hash of the log. -/
structure UniswapV2PairSwap where
  Amount0In : Nat
  Amount0Out : Nat
  Amount1In : Nat
  Amount1Out : Nat
  RawAddress : String
  RawBlockNumber : Nat
  RawTxHash : String
  deriving DecidableEq

/-- The type `UniswapSwap`: a swap with decimal-scaled amounts. -/
structure UniswapSwap where
  ID : String
  Timestamp : Int
  Pair : UniswapPair
  Amount0In : F64
  Amount0Out : F64
  Amount1In : F64
  Amount1Out : F64
  deriving DecidableEq

/-- The zero value `UniswapSwap{}`. -/
def emptySwap : UniswapSwap :=
  { ID := "", Timestamp := 0, Pair := emptyPair, Amount0In := F64.fin 0,
    Amount0Out := F64.fin 0, Amount1In := F64.fin 0, Amount1Out := F64.fin 0 }

/-- The type `UniswapHistoryPairScraper`, without the back pointer to its session. -/
structure UniswapHistoryPairScraper where
  pair : ExchangePair
  closed : Bool
  deriving DecidableEq

/-- An operation on a resource owned by the session. -/
inductive HandleOp where
  | wsClientClose
  | restClientClose
  | shutdownClose
  deriving DecidableEq, Repr

/-- The session `UniswapHistoryScraper`.  The two client handles and the `shutdown`
channel are represented by `handleOps`, the operations performed on them so far. -/
structure UniswapHistoryScraper where
  exchangeName : String
  error : Option String
  closed : Bool
  pairScrapers : List (String × UniswapHistoryPairScraper)
  handleOps : List HandleOp
  deriving DecidableEq

/-- The collaborators of the scraper that live outside the file: the remote reads of the
chain client (each may fail with a message), the block-time store, and the helpers
`helpers.SymbolIsBlackListed`, `helpers.AddressIsBlacklisted`, `normalizeUniPair`,
`getSwapData`, `dia.SwapTrade`, the `big.Float` scaling of a raw amount by a number of
decimals, and the configured list `reversePairs`.  The generated binding constructors
(`NewIUniswapV2PairCaller`, `NewIERC20Caller`, `NewIUniswapV2FactoryCaller`) parse a fixed
ABI, read nothing remotely, and are taken to succeed.  `FilterSwap` receives the number
of earlier log queries of the worker, so that the node may answer the same window
differently on a retry. -/
structure Env where
  AllPairsLength : Except String Nat
  AllPairs : Int → Except String String
  Token0 : String → Except String String
  Token1 : String → Except String String
  Symbol : String → Except String String
  Decimals : String → Except String Nat
  Name : String → Except String String
  FilterSwap : Nat → String → Nat → Nat → Except String (List UniswapV2PairSwap)
  GetBlockData : Nat → Except String Int
  SymbolIsBlackListed : String → Bool
  AddressIsBlacklisted : String → Bool
  normalizeUniPair : UniswapPair → UniswapPair
  getSwapData : UniswapSwap → F64 × F64
  SwapTrade : Trade → Except String Trade
  scaleAmount : Nat → Nat → F64
  reversePairs : List String

/-- The value a generated binding hands back next to an error: the zero value. -/
def valueOr {α : Type} (r : Except String α) (zero : α) : α :=
  match r with
  | Except.ok v => v
  | Except.error _ => zero

/-- The error a call hands back, `none` standing for `nil`. -/
def errOf {α : Type} (r : Except String α) : Option String :=
  match r with
  | Except.ok _ => none
  | Except.error e => some e

/-! ## Pair registry -/

/-- `GetDecimals`: the decimals of a token and the error of the read. -/
def GetDecimals (env : Env) (tokenAddress : String) : Nat × Option String :=
  (valueOr (env.Decimals tokenAddress) 0, errOf (env.Decimals tokenAddress))

/-- `GetName`: the name of a token and the error of the read. -/
def GetName (env : Env) (tokenAddress : String) : String × Option String :=
  (valueOr (env.Name tokenAddress) "", errOf (env.Name tokenAddress))

/-- `GetPairByAddress`.  The errors of the `Token0` and `Token1` reads are discarded
(`address0, _ := ...`), those of the two `Symbol` reads are logged only; an error of a
decimals or name read returns `UniswapPair{}` with that error. -/
def GetPairByAddress (env : Env) (pairAddress : String) : UniswapPair × Option String :=
  let address0 := valueOr (env.Token0 pairAddress) zeroAddress
  let address1 := valueOr (env.Token1 pairAddress) zeroAddress
  let symbol0 := valueOr (env.Symbol address0) ""
  let symbol1 := valueOr (env.Symbol address1) ""
  match GetDecimals env address0 with
  | (_, some e) => (emptyPair, some e)
  | (decimals0, none) =>
    match GetDecimals env address1 with
    | (_, some e) => (emptyPair, some e)
    | (decimals1, none) =>
      match GetName env address0 with
      | (_, some e) => (emptyPair, some e)
      | (name0, none) =>
        match GetName env address1 with
        | (_, some e) => (emptyPair, some e)
        | (name1, none) =>
          ({ ForeignName := symbol0 ++ "-" ++ symbol1,
             Address := pairAddress,
             Token0 := { Address := address0, Symbol := symbol0, Decimals := decimals0, Name := name0 },
             Token1 := { Address := address1, Symbol := symbol1, Decimals := decimals1, Name := name1 } },
           none)

/-- `GetPairByID`: the factory's `AllPairs(num)` read followed by `GetPairByAddress`. -/
def GetPairByID (env : Env) (num : Int) : UniswapPair × Option String :=
  match env.AllPairs num with
  | Except.error e => (emptyPair, some e)
  | Except.ok pairAddress =>
    match GetPairByAddress env pairAddress with
    | (_, some e) => (emptyPair, some e)
    | (pair, none) => (pair, none)

/-- The slot `pairs[index]` once the goroutine of `index` has finished: the normalized
pair when `GetPairByID` succeeded, the untouched zero value of `make` otherwise. -/
def pairSlot (env : Env) (index : Nat) : UniswapPair :=
  match GetPairByID env (Int.ofNat index) with
  | (_, some _) => emptyPair
  | (uniPair, none) => env.normalizeUniPair uniPair

/-- `GetAllPairs`, for a pair count that fits Go's `int`.  The slice is allocated with
`numPairs` entries, every goroutine writes only its own slot, and the deferred
`wg.Wait()` lets all of them finish before the caller sees the slice. -/
def GetAllPairs (env : Env) : List UniswapPair × Option String :=
  match env.AllPairsLength with
  | Except.error e => ([], some e)
  | Except.ok numPairs => ((List.range numPairs).map (pairSlot env), none)

/-! ## Backfill worker -/

/-- Go's `strings.Contains`, on the characters of the two strings. -/
def stringsContains (s substr : String) : Bool :=
  decide (substr.data <:+: s.data)

/-- Modelled from the spec: `utils.Contains`, which is not part of the file, tells whether
a token address "is in the reverse list". -/
def Contains (list : List String) (str : String) : Bool :=
  list.contains str

/-- The branch the loop body takes on the result of `GetSwapsIterator`: a size-limit
error is recognised by two substrings of its message, any other error is retried. -/
def classify {α : Type} : Except String α → QueryOutcome
  | Except.ok _ => QueryOutcome.success
  | Except.error msg =>
    if stringsContains msg "query returned more than 10000 results"
        || stringsContains msg "Log response size exceeded" then
      QueryOutcome.sizeLimit
    else
      QueryOutcome.transient

/-- `normalizeUniswapSwap`: the scaled swap and the error.  Both early returns leave the
named result at its zero value. -/
def normalizeUniswapSwap (env : Env) (swap : UniswapV2PairSwap) : UniswapSwap × Option String :=
  match GetPairByAddress env swap.RawAddress with
  | (_, some e) => (emptySwap, some e)
  | (pair, none) =>
    match env.GetBlockData swap.RawBlockNumber with
    | Except.error e => (emptySwap, some e)
    | Except.ok time =>
      ({ ID := swap.RawTxHash,
         Timestamp := time,
         Pair := pair,
         Amount0In := env.scaleAmount swap.Amount0In pair.Token0.Decimals,
         Amount0Out := env.scaleAmount swap.Amount0Out pair.Token0.Decimals,
         Amount1In := env.scaleAmount swap.Amount1In pair.Token1.Decimals,
         Amount1Out := env.scaleAmount swap.Amount1Out pair.Token1.Decimals },
       none)

/-- The `dia.Asset` built from a token of the pair, on `dia.ETHEREUM`. -/
def assetOf (token : UniswapToken) : Asset :=
  { Address := token.Address, Symbol := token.Symbol, Name := token.Name,
    Decimals := token.Decimals, Blockchain := "Ethereum" }

/-- The trade `t` as first built for a swap: base token `pair.Token1`, quote token
`pair.Token0`. -/
def buildTrade (s : UniswapHistoryScraper) (ps : UniswapHistoryPairScraper) (pair : UniswapPair)
    (swap : UniswapSwap) (price volume : F64) : Trade :=
  { Symbol := ps.pair.Symbol,
    Pair := ps.pair.ForeignName,
    Price := price,
    Volume := volume,
    BaseToken := assetOf pair.Token1,
    QuoteToken := assetOf pair.Token0,
    Time := swap.Timestamp,
    ForeignTradeID := swap.ID,
    Source := s.exchangeName,
    VerifiedPair := true }

/-- The reverse-pair step: when `pair.Token1`'s address is in `reversePairs` and
`dia.SwapTrade` returns no error, `t` is replaced by the swapped trade. -/
def reverseIfListed (env : Env) (pair : UniswapPair) (t : Trade) : Trade :=
  if Contains env.reversePairs pair.Token1.Address then
    match env.SwapTrade t with
    | Except.ok tSwapped => tSwapped
    | Except.error _ => t
  else t

/-- The body of the inner loop for one swap event: the trades sent on `chanTrades`. -/
def processSwap (env : Env) (s : UniswapHistoryScraper) (ps : UniswapHistoryPairScraper)
    (pair : UniswapPair) (rawSwap : UniswapV2PairSwap) : List Trade :=
  let swap := (normalizeUniswapSwap env rawSwap).1
  let price := (env.getSwapData swap).1
  let volume := (env.getSwapData swap).2
  let t := reverseIfListed env pair (buildTrade s ps pair swap price volume)
  if price.gtZero then [t] else []

/-- What a run of `fetchTrades` did: the windows passed to `GetSwapsIterator` in order,
the trades sent on `chanTrades` in order, the cursor it stopped at, and whether it
returned (`false` when the fuel of the model ran out first). -/
structure ScanResult where
  queried : List (Nat × Nat)
  trades : List Trade
  final : Cursor
  finished : Bool

/-- The loop `for startblock <= blockFinal` of `fetchTrades`; `k` counts the log queries
made so far. -/
def scanLoop (env : Env) (s : UniswapHistoryScraper) (ps : UniswapHistoryPairScraper)
    (pair : UniswapPair) (blockFinal : Nat) : Nat → Nat → Cursor → ScanResult
  | 0, _, c => { queried := [], trades := [], final := c, finished := false }
  | fuel + 1, k, c =>
    if c.startblock ≤ blockFinal then
      let r := env.FilterSwap k pair.Address c.startblock c.endblock
      let rest := scanLoop env s ps pair blockFinal fuel (k + 1) (step c (classify r))
      { queried := (c.startblock, c.endblock) :: rest.queried,
        trades := ((valueOr r []).map (processSwap env s ps pair)).flatten ++ rest.trades,
        final := rest.final,
        finished := rest.finished }
    else
      { queried := [], trades := [], final := c, finished := true }

/-- The pair hard-coded for index `-1` on PanCakeSwap. -/
def wowBusdPair : UniswapPair :=
  { Token0 := { Address := "0x4DA996C5Fe84755C80e108cf96Fe705174c5e36A", Symbol := "WOW",
                Decimals := 18, Name := "" },
    Token1 := { Address := "0xe9e7CEA3DedcA5984780Bafc599bD69ADd087D56", Symbol := "BUSD",
                Decimals := 18, Name := "" },
    ForeignName := "WOW-BUSD",
    Address := "0xA99b9bCC6a196397DA87FA811aEd293B1b488f44" }

/-- The pair a worker starts from: the hard-coded one, or the result of `GetPairByID`
whose error is logged only. -/
def workerPair (env : Env) (s : UniswapHistoryScraper) (i : Int) : UniswapPair :=
  if i = -1 ∧ s.exchangeName = "PanCakeSwap" then wowBusdPair else (GetPairByID env i).1

/-- The result of a worker that returns before its scan loop. -/
def skipped (blockInit : Nat) : ScanResult :=
  { queried := [], trades := [], final := initCursor blockInit, finished := true }

/-- `fetchTrades`: the session afterwards and what the worker did.  `len` of a Go string
counts bytes. -/
def fetchTrades (env : Env) (s : UniswapHistoryScraper) (i : Int) (blockInit blockFinal : Nat)
    (fuel : Nat) : UniswapHistoryScraper × ScanResult :=
  let pair := workerPair env s i
  if pair.Token0.Symbol.utf8ByteSize < 2 ∨ pair.Token1.Symbol.utf8ByteSize < 2 then
    (s, skipped blockInit)
  else if env.SymbolIsBlackListed pair.Token0.Symbol || env.SymbolIsBlackListed pair.Token1.Symbol then
    (s, skipped blockInit)
  else if env.AddressIsBlacklisted pair.Token0.Address || env.AddressIsBlacklisted pair.Token1.Address then
    (s, skipped blockInit)
  else
    let pair := env.normalizeUniPair pair
    match s.pairScrapers.lookup pair.ForeignName with
    | some ps => (s, scanLoop env s ps pair blockFinal fuel 0 (initCursor blockInit))
    | none => (s, skipped blockInit)

/-! ## Shutdown -/

/-- How a call of `Close` ends: it returns an error value, it stays blocked on
`shutdownDone`, or it panics. -/
inductive CloseResult where
  | returned (err : Option String)
  | blocked
  | panicked
  deriving DecidableEq

/-- `Close`.  `ack` tells whether a value ever arrives on `shutdownDone`.  Closing the
already closed `shutdown` channel is a run-time panic in Go.  No statement of the method
writes `s.closed`. -/
def Close (s : UniswapHistoryScraper) (ack : Bool) : UniswapHistoryScraper × CloseResult :=
  if s.closed then
    (s, CloseResult.returned (some "UniswapScraper: Already closed"))
  else
    let s1 := { s with handleOps := s.handleOps ++ [HandleOp.wsClientClose, HandleOp.restClientClose] }
    if HandleOp.shutdownClose ∈ s1.handleOps then
      (s1, CloseResult.panicked)
    else
      let s2 := { s1 with handleOps := s1.handleOps ++ [HandleOp.shutdownClose] }
      if ack then (s2, CloseResult.returned s2.error) else (s2, CloseResult.blocked)

/-- The session as `NewUniswapHistoryScraper` builds it. -/
def NewUniswapHistoryScraper (exchangeName : String) : UniswapHistoryScraper :=
  { exchangeName := exchangeName, error := none, closed := false, pairScrapers := [],
    handleOps := [] }

/-! ## Sample data -/

/-- Every log query of the worker on the pool `pool` succeeds. -/
def AllQueriesSucceed (env : Env) (pool : String) : Prop :=
  ∀ k startblock endblock, ∃ events, env.FilterSwap k pool startblock endblock = Except.ok events

/-- Number of windows an error-free scan from `startblock` still has to query. -/
def remaining (blockFinal startblock : Nat) : Nat :=
  if startblock ≤ blockFinal then (blockFinal - startblock) / filterQueryBlockNums + 1 else 0

/-- Modelled from the spec: `dia.SwapTrade`, which is not part of the file.  The spec
gives it for a nonzero price: base and quote token are exchanged and the price is
inverted; the caller allows for an error, reported here for a zero price. -/
def SwapTrade (t : Trade) : Except String Trade :=
  if t.Price.eqZero then Except.error "zero price"
  else Except.ok { t with BaseToken := t.QuoteToken, QuoteToken := t.BaseToken, Price := t.Price.inv }

/-- A small chain: one pool `0xP` of the tokens `0xA` (symbol `AAA`) and `0xB` (symbol
`BBB`), every read and every log query succeeding, no swap logged. -/
def sampleEnv : Env :=
  { AllPairsLength := Except.ok 1,
    AllPairs := fun _ => Except.ok "0xP",
    Token0 := fun _ => Except.ok "0xA",
    Token1 := fun _ => Except.ok "0xB",
    Symbol := fun a => Except.ok (if a = "0xA" then "AAA" else "BBB"),
    Decimals := fun _ => Except.ok 18,
    Name := fun a => Except.ok (if a = "0xA" then "Token A" else "Token B"),
    FilterSwap := fun _ _ _ _ => Except.ok [],
    GetBlockData := fun n => Except.ok (Int.ofNat n),
    SymbolIsBlackListed := fun _ => false,
    AddressIsBlacklisted := fun _ => false,
    normalizeUniPair := fun p => p,
    getSwapData := fun _ => (F64.fin 2, F64.fin 1),
    SwapTrade := SwapTrade,
    scaleAmount := fun a _ => F64.fin (a : ℚ),
    reversePairs := [] }

/-- The pair of the sample chain. -/
def samplePair : UniswapPair :=
  { Token0 := { Address := "0xA", Symbol := "AAA", Decimals := 18, Name := "Token A" },
    Token1 := { Address := "0xB", Symbol := "BBB", Decimals := 18, Name := "Token B" },
    ForeignName := "AAA-BBB",
    Address := "0xP" }

/-- A pair scraper registered for the sample pair. -/
def samplePairScraper : UniswapHistoryPairScraper :=
  { pair := { Symbol := "AAA", ForeignName := "AAA-BBB" }, closed := false }

/-- A session with the sample pair registered. -/
def sampleScraper : UniswapHistoryScraper :=
  { NewUniswapHistoryScraper "Uniswap" with pairScrapers := [("AAA-BBB", samplePairScraper)] }

/-- A swap log of the sample pool in block 0. -/
def sampleSwap : UniswapV2PairSwap :=
  { Amount0In := 1, Amount0Out := 0, Amount1In := 0, Amount1Out := 2, RawAddress := "0xP",
    RawBlockNumber := 0, RawTxHash := "0xT" }

/-- The sample chain with token `0xA` carrying the one-character symbol `Ξ` (two bytes
in UTF-8) and one swap logged in every queried window. -/
def greekEnv : Env :=
  { sampleEnv with
    Symbol := fun a => Except.ok (if a = "0xA" then "Ξ" else "BBB"),
    FilterSwap := fun _ _ _ _ => Except.ok [sampleSwap] }

/-- A session with the pair `Ξ-BBB` registered. -/
def greekScraper : UniswapHistoryScraper :=
  { NewUniswapHistoryScraper "Uniswap" with
    pairScrapers := [("Ξ-BBB", { pair := { Symbol := "Ξ", ForeignName := "Ξ-BBB" }, closed := false })] }

/-- The sample chain with a factory whose `AllPairs` read fails. -/
def noPairEnv : Env :=
  { sampleEnv with
    AllPairs := fun _ => Except.error "execution reverted",
    FilterSwap := fun _ _ _ _ => Except.ok [sampleSwap] }

/-- The sample chain with a pool whose `Token0` read fails while every other read
succeeds. -/
def token0FailEnv : Env :=
  { sampleEnv with Token0 := fun _ => Except.error "no contract code at given address" }

/-- The sample chain with a factory of two pools, `0xQ` at index 0 and `0xP` at index 1,
where the decimals of the tokens of `0xQ` (`0xC`, `0xD`) cannot be read. -/
def twoPoolEnv : Env :=
  { sampleEnv with
    AllPairsLength := Except.ok 2,
    AllPairs := fun i => Except.ok (if i = 0 then "0xQ" else "0xP"),
    Token0 := fun p => Except.ok (if p = "0xQ" then "0xC" else "0xA"),
    Token1 := fun p => Except.ok (if p = "0xQ" then "0xD" else "0xB"),
    Decimals := fun a =>
      if a = "0xA" ∨ a = "0xB" then Except.ok 18 else Except.error "execution reverted" }

/-- The sample chain with one swap logged per window and the address of `Token0`, the
quote token of the trades, in the reverse list. -/
def quoteListedEnv : Env :=
  { sampleEnv with
    FilterSwap := fun _ _ _ _ => Except.ok [sampleSwap],
    reversePairs := ["0xA"] }

/-- The sample chain with one swap logged per window and the address of `Token1`, the
base token of the trades, in the reverse list. -/
def baseListedEnv : Env :=
  { sampleEnv with
    FilterSwap := fun _ _ _ _ => Except.ok [sampleSwap],
    reversePairs := ["0xB"] }

/-- The result the spec words give for `GetAllPairs` on a factory of `n` pairs: one entry
for each index whose `GetPairByID` succeeded, none for an index whose resolution failed. -/
def successfullyResolved (env : Env) (n : Nat) : List UniswapPair :=
  (List.range n).filterMap (fun index =>
    match GetPairByID env (Int.ofNat index) with
    | (_, some _) => none
    | (uniPair, none) => some (env.normalizeUniPair uniPair))

/-! ## Registration of pair scrapers -/

/-- `Pair()` of a pair scraper. -/
def UniswapHistoryPairScraper.Pair (ps : UniswapHistoryPairScraper) : ExchangePair :=
  ps.pair

/-- The sample chain with one swap logged per window and a node that answers the first
ten log queries of a worker with its size-limit error and every later one normally. -/
def sizeLimitEnv : Env :=
  { sampleEnv with
    FilterSwap := fun k _ _ _ =>
      if k < 10 then Except.error "query returned more than 10000 results"
      else Except.ok [sampleSwap] }

/-- From query number `k` on, every log query of the worker on the pool succeeds. -/
def QueriesSucceedFrom (env : Env) (pool : String) (k : Nat) : Prop :=
  ∀ j startblock endblock, k ≤ j →
    ∃ events, env.FilterSwap j pool startblock endblock = Except.ok events

/-! ## The window cursor -/

theorem classify_of_succeed {α : Type} (r : Except String α) (h : ∃ v, r = Except.ok v) :
    classify r = QueryOutcome.success := by
  obtain ⟨v, rfl⟩ := h
  rfl

theorem remaining_advance (blockFinal startblock n : Nat)
    (h : remaining blockFinal startblock = n + 1) :
    startblock ≤ blockFinal ∧ remaining blockFinal (startblock + filterQueryBlockNums) = n := by
  unfold remaining filterQueryBlockNums at *
  split_ifs at h ⊢ <;> omega

/-- An error-free scan queries the `remaining` windows of width `filterQueryBlockNums`
one after the other and then leaves the loop. -/
theorem scanLoop_success (env : Env) (s : UniswapHistoryScraper) (ps : UniswapHistoryPairScraper)
    (pair : UniswapPair) (blockFinal : Nat) (hov : blockFinal + filterQueryBlockNums < u64)
    (hok : AllQueriesSucceed env pair.Address) :
    ∀ (n fuel k : Nat) (c : Cursor),
      (c.startblock ≤ blockFinal → c.endblock = c.startblock + filterQueryBlockNums) →
      remaining blockFinal c.startblock = n → n < fuel →
      (scanLoop env s ps pair blockFinal fuel k c).queried
          = (List.range n).map (fun j => (c.startblock + filterQueryBlockNums * j,
                                          c.startblock + filterQueryBlockNums * (j + 1)))
        ∧ (scanLoop env s ps pair blockFinal fuel k c).finished = true
        ∧ (scanLoop env s ps pair blockFinal fuel k c).final.startblock
            = c.startblock + filterQueryBlockNums * n
        ∧ blockFinal < (scanLoop env s ps pair blockFinal fuel k c).final.startblock := by
  intro n
  induction n with
  | zero =>
    intro fuel k c _ hrem hfuel
    obtain ⟨f, rfl⟩ : ∃ f, fuel = f + 1 := ⟨fuel - 1, by omega⟩
    have hgt : ¬ c.startblock ≤ blockFinal := by
      intro hle
      simp [remaining, hle] at hrem
    simp only [scanLoop, if_neg hgt]
    simp
    omega
  | succ n ih =>
    intro fuel k c hc hrem hfuel
    obtain ⟨f, rfl⟩ : ∃ f, fuel = f + 1 := ⟨fuel - 1, by omega⟩
    obtain ⟨hle, hrem1⟩ := remaining_advance blockFinal c.startblock n hrem
    have he := hc hle
    have hstep : step c (classify (env.FilterSwap k pair.Address c.startblock c.endblock))
        = advance c := by
      rw [classify_of_succeed _ (hok k c.startblock c.endblock)]
      rfl
    have hs : (advance c).startblock = c.startblock + filterQueryBlockNums := by
      simp [advance, he]
    have hc1 : (advance c).startblock ≤ blockFinal →
        (advance c).endblock = (advance c).startblock + filterQueryBlockNums := by
      intro h1
      rw [hs] at h1 ⊢
      simp only [advance, he]
      apply Nat.mod_eq_of_lt
      unfold filterQueryBlockNums u64 at *
      omega
    have hrem2 : remaining blockFinal (advance c).startblock = n := by rw [hs]; exact hrem1
    obtain ⟨h1, h2, h3, h4⟩ := ih f (k + 1) (advance c) hc1 hrem2 (by omega)
    simp only [scanLoop, if_pos hle, hstep]
    refine ⟨?_, h2, ?_, h4⟩
    · rw [h1, hs, List.range_succ_eq_map, List.map_cons, List.map_map]
      simp only [Nat.mul_zero, Nat.add_zero, Nat.zero_add, Nat.mul_one, he]
      congr 1
      apply List.map_congr_left
      intro j _
      simp only [Function.comp, Nat.succ_eq_add_one, Prod.mk.injEq]
      constructor <;> ring
    · rw [h3, hs]; ring

/-- Every window the loop queries is the cursor reached from its starting cursor by some
sequence of query outcomes. -/
theorem scanLoop_queried_reachable (env : Env) (s : UniswapHistoryScraper)
    (ps : UniswapHistoryPairScraper) (pair : UniswapPair) (blockFinal : Nat) :
    ∀ (fuel k : Nat) (c : Cursor) (w : Nat × Nat),
      w ∈ (scanLoop env s ps pair blockFinal fuel k c).queried →
      ∃ os : List QueryOutcome,
        w = ((runOutcomes c os).startblock, (runOutcomes c os).endblock) := by
  intro fuel
  induction fuel with
  | zero =>
    intro k c w hw
    simp [scanLoop] at hw
  | succ f ih =>
    intro k c w hw
    by_cases hle : c.startblock ≤ blockFinal
    · simp only [scanLoop, if_pos hle, List.mem_cons] at hw
      rcases hw with rfl | hw
      · exact ⟨[], rfl⟩
      · obtain ⟨os, hos⟩ := ih _ _ w hw
        exact ⟨classify (env.FilterSwap k pair.Address c.startblock c.endblock) :: os, hos⟩
    · simp [scanLoop, if_neg hle] at hw

theorem step_invariant (c : Cursor) (o : QueryOutcome)
    (h : c.startblock ≤ c.endblock ∧ c.endblock < u64) (hfit : stepFits c o) :
    (step c o).startblock ≤ (step c o).endblock ∧ (step c o).endblock < u64 := by
  obtain ⟨h1, h2⟩ := h
  cases o with
  | success =>
    simp only [stepFits] at hfit
    simp only [step, advance]
    rw [Nat.mod_eq_of_lt hfit]
    exact ⟨Nat.le_add_right _ _, hfit⟩
  | sizeLimit =>
    simp only [step, shrink]
    unfold u64 at *
    omega
  | transient => exact ⟨h1, h2⟩

theorem runOutcomes_invariant (os : List QueryOutcome) :
    ∀ c : Cursor, c.startblock ≤ c.endblock ∧ c.endblock < u64 → allFit c os →
      (runOutcomes c os).startblock ≤ (runOutcomes c os).endblock
        ∧ (runOutcomes c os).endblock < u64 := by
  induction os with
  | nil => intro c h _; exact h
  | cons o os ih =>
    intro c h hfit
    exact ih (step c o) (step_invariant c o h hfit.1) hfit.2

theorem shrink_width (c : Cursor) (h : c.startblock ≤ c.endblock) (hlt : c.endblock < u64) :
    (shrink c).endblock = c.startblock + (c.endblock - c.startblock) / 2 := by
  simp only [shrink]
  unfold u64 at *
  omega

/-- C1 as stated fails.  For the range `[0, 1000]` the error-free scan queries the windows
`[0, 1000]` and `[1000, 2000]`: block 1000 lies in both, so the windows are not pairwise
disjoint, and block 2000 is queried although it is above `blockFinal`, so the union is
not `[0, 1000]`. -/
theorem fetchTrades_windows_not_partition :
    (fetchTrades sampleEnv sampleScraper 0 0 1000 5).2.queried = [(0, 1000), (1000, 2000)]
      ∧ ¬ (fetchTrades sampleEnv sampleScraper 0 0 1000 5).2.queried.Pairwise
            (fun w v => ∀ b : Nat, ¬ ((w.1 ≤ b ∧ b ≤ w.2) ∧ (v.1 ≤ b ∧ b ≤ v.2)))
      ∧ ¬ (∀ b : Nat,
            (∃ w ∈ (fetchTrades sampleEnv sampleScraper 0 0 1000 5).2.queried, w.1 ≤ b ∧ b ≤ w.2)
              ↔ (0 ≤ b ∧ b ≤ 1000)) := by
  have hq : (fetchTrades sampleEnv sampleScraper 0 0 1000 5).2.queried
      = [(0, 1000), (1000, 2000)] := by decide
  refine ⟨hq, ?_, ?_⟩
  · rw [hq]
    intro hp
    simp only [List.pairwise_cons, List.mem_singleton, forall_eq] at hp
    exact hp.1 1000 ⟨⟨by omega, by omega⟩, ⟨by omega, by omega⟩⟩
  · rw [hq]
    intro hall
    have h := (hall 2000).1 ⟨(1000, 2000), by simp, by simp⟩
    omega

/-- C1, amended.  When every log query succeeds, `blockInit <= blockFinal` and
`blockFinal + 1000` fits `uint64`, the scan returns, the inclusive windows it passed to
`GetSwapsIterator` leave no gap, and their union is exactly the block interval from
`blockInit` to `blockInit + 1000 * ((blockFinal - blockInit) / 1000 + 1)`; that upper end
lies above `blockFinal` by at most 1000, so every block of `[blockInit, blockFinal]` is
queried. -/
theorem fetchTrades_windows_cover (env : Env) (s : UniswapHistoryScraper)
    (ps : UniswapHistoryPairScraper) (pair : UniswapPair) (blockInit blockFinal fuel : Nat)
    (hle : blockInit ≤ blockFinal) (hov : blockFinal + filterQueryBlockNums < u64)
    (hok : AllQueriesSucceed env pair.Address)
    (hfuel : (blockFinal - blockInit) / filterQueryBlockNums + 1 < fuel) :
    (scanLoop env s ps pair blockFinal fuel 0 (initCursor blockInit)).finished = true
      ∧ (∀ b : Nat,
          (∃ w ∈ (scanLoop env s ps pair blockFinal fuel 0 (initCursor blockInit)).queried,
              w.1 ≤ b ∧ b ≤ w.2)
            ↔ (blockInit ≤ b ∧ b ≤ blockInit
                + filterQueryBlockNums * ((blockFinal - blockInit) / filterQueryBlockNums + 1)))
      ∧ blockFinal < blockInit
          + filterQueryBlockNums * ((blockFinal - blockInit) / filterQueryBlockNums + 1)
      ∧ blockInit + filterQueryBlockNums * ((blockFinal - blockInit) / filterQueryBlockNums + 1)
          ≤ blockFinal + filterQueryBlockNums := by
  have hinit : (initCursor blockInit).startblock ≤ blockFinal →
      (initCursor blockInit).endblock = (initCursor blockInit).startblock + filterQueryBlockNums := by
    intro _
    simp only [initCursor]
    apply Nat.mod_eq_of_lt
    unfold filterQueryBlockNums u64 at *
    omega
  have hrem : remaining blockFinal (initCursor blockInit).startblock
      = (blockFinal - blockInit) / filterQueryBlockNums + 1 := by
    simp [remaining, initCursor, hle]
  obtain ⟨hq, hfin, _, _⟩ := scanLoop_success env s ps pair blockFinal hov hok _ fuel 0
    (initCursor blockInit) hinit hrem hfuel
  refine ⟨hfin, ?_, ?_, ?_⟩
  · intro b
    rw [hq]
    simp only [List.mem_map, List.mem_range, initCursor]
    unfold filterQueryBlockNums at *
    constructor
    · rintro ⟨w, ⟨j, hj, rfl⟩, h1, h2⟩
      simp only at h1 h2
      constructor
      · omega
      · have : 1000 * (j + 1) ≤ 1000 * ((blockFinal - blockInit) / 1000 + 1) :=
          Nat.mul_le_mul_left _ (by omega)
        omega
    · rintro ⟨h1, h2⟩
      by_cases hb : b ≤ blockFinal
      · refine ⟨_, ⟨(b - blockInit) / 1000, ?_, rfl⟩, ?_, ?_⟩
        · have : (b - blockInit) / 1000 ≤ (blockFinal - blockInit) / 1000 :=
            Nat.div_le_div_right (by omega)
          omega
        · simp only; omega
        · simp only; omega
      · refine ⟨_, ⟨(blockFinal - blockInit) / 1000, by omega, rfl⟩, ?_, ?_⟩
        · simp only; omega
        · simp only; omega
  · unfold filterQueryBlockNums; omega
  · unfold filterQueryBlockNums; omega

/-- The amended C1 at the range `[0, 1000]` of the sample chain. -/
theorem fetchTrades_windows_cover_witness :
    (scanLoop sampleEnv sampleScraper samplePairScraper samplePair 1000 5 0 (initCursor 0)).finished
        = true
      ∧ (∀ b : Nat,
          (∃ w ∈ (scanLoop sampleEnv sampleScraper samplePairScraper samplePair 1000 5 0
                    (initCursor 0)).queried, w.1 ≤ b ∧ b ≤ w.2)
            ↔ (0 ≤ b ∧ b ≤ 0 + filterQueryBlockNums * ((1000 - 0) / filterQueryBlockNums + 1)))
      ∧ 1000 < 0 + filterQueryBlockNums * ((1000 - 0) / filterQueryBlockNums + 1)
      ∧ 0 + filterQueryBlockNums * ((1000 - 0) / filterQueryBlockNums + 1)
          ≤ 1000 + filterQueryBlockNums :=
  fetchTrades_windows_cover sampleEnv sampleScraper samplePairScraper samplePair 0 1000 5
    (by decide) (by decide) (fun _ _ _ => ⟨[], rfl⟩) (by decide)

/-- C2 as stated fails.  Ten size-limit errors in a row take the first window of a scan
from block 0 down to `startblock = endblock = 0`; that window satisfies
`startblock <= endblock`, and the shrink step returns it unchanged, so its width is not
strictly smaller. -/
theorem shrink_not_strict_at_single_block :
    runOutcomes (initCursor 0) (List.replicate 10 QueryOutcome.sizeLimit)
        = { startblock := 0, endblock := 0 }
      ∧ ¬ (∀ c : Cursor, c.startblock ≤ c.endblock → width (shrink c) < width c)
      ∧ shrink { startblock := 0, endblock := 0 } = { startblock := 0, endblock := 0 } := by
  refine ⟨by decide, ?_, by decide⟩
  intro h
  have h0 := h { startblock := 0, endblock := 0 } (Nat.le_refl _)
  revert h0
  decide

/-- C2, amended.  For every window with `startblock <= endblock` (a `uint64` value) the
shrink step keeps `startblock`, keeps `startblock <= endblock` and halves the width,
rounding down; the width is strictly smaller whenever `startblock < endblock`, and a
window with `startblock = endblock` is returned unchanged. -/
theorem shrink_halves_width (c : Cursor) (h : c.startblock ≤ c.endblock)
    (hlt : c.endblock < u64) :
    (shrink c).startblock = c.startblock
      ∧ (shrink c).startblock ≤ (shrink c).endblock
      ∧ width (shrink c) = width c / 2
      ∧ (c.startblock < c.endblock → width (shrink c) < width c)
      ∧ (c.startblock = c.endblock → shrink c = c) := by
  have he := shrink_width c h hlt
  have hs : (shrink c).startblock = c.startblock := rfl
  refine ⟨hs, ?_, ?_, ?_, ?_⟩
  · rw [hs, he]; omega
  · simp only [width, hs, he]; omega
  · intro hlt2
    simp only [width, hs, he]; omega
  · intro heq
    have : (shrink c).endblock = c.endblock := by rw [he]; omega
    cases c
    simp only [shrink] at this hs ⊢
    simp only [Cursor.mk.injEq, true_and]
    exact this

/-- The amended C2 at the first window `[0, 1000]` of a scan from block 0. -/
theorem shrink_halves_width_witness :
    (shrink (initCursor 0)).startblock = (initCursor 0).startblock
      ∧ (shrink (initCursor 0)).startblock ≤ (shrink (initCursor 0)).endblock
      ∧ width (shrink (initCursor 0)) = width (initCursor 0) / 2
      ∧ ((initCursor 0).startblock < (initCursor 0).endblock →
          width (shrink (initCursor 0)) < width (initCursor 0))
      ∧ ((initCursor 0).startblock = (initCursor 0).endblock →
          shrink (initCursor 0) = initCursor 0) :=
  shrink_halves_width (initCursor 0) (by decide) (by decide)

/-- C3.  `startblock <= endblock` is an invariant of the scan loop of `fetchTrades`: it
holds at loop entry and after every sequence of loop passes (size-limit shrink,
transient-error retry, advance after a success), for every `blockInit` and every sequence
of query outcomes, provided no `uint64` addition overflows; and a shrink or retry pass
leaves `startblock` unchanged. -/
theorem scan_cursor_invariant (blockInit : Nat) (os : List QueryOutcome)
    (hinit : blockInit + filterQueryBlockNums < u64)
    (hfit : allFit (initCursor blockInit) os) :
    (initCursor blockInit).startblock ≤ (initCursor blockInit).endblock
      ∧ (runOutcomes (initCursor blockInit) os).startblock
          ≤ (runOutcomes (initCursor blockInit) os).endblock
      ∧ ∀ o : QueryOutcome, o ≠ QueryOutcome.success →
          (step (runOutcomes (initCursor blockInit) os) o).startblock
            = (runOutcomes (initCursor blockInit) os).startblock := by
  have h0 : (initCursor blockInit).startblock ≤ (initCursor blockInit).endblock
      ∧ (initCursor blockInit).endblock < u64 := by
    simp only [initCursor]
    rw [Nat.mod_eq_of_lt hinit]
    exact ⟨Nat.le_add_right _ _, hinit⟩
  refine ⟨h0.1, (runOutcomes_invariant os _ h0 hfit).1, ?_⟩
  intro o ho
  cases o with
  | success => exact absurd rfl ho
  | sizeLimit => rfl
  | transient => rfl

/-- C3 on a scan from block 0 that meets a size-limit error, a transient error and a
success. -/
theorem scan_cursor_invariant_witness :
    (initCursor 0).startblock ≤ (initCursor 0).endblock
      ∧ (runOutcomes (initCursor 0)
            [QueryOutcome.sizeLimit, QueryOutcome.transient, QueryOutcome.success]).startblock
          ≤ (runOutcomes (initCursor 0)
            [QueryOutcome.sizeLimit, QueryOutcome.transient, QueryOutcome.success]).endblock
      ∧ ∀ o : QueryOutcome, o ≠ QueryOutcome.success →
          (step (runOutcomes (initCursor 0)
              [QueryOutcome.sizeLimit, QueryOutcome.transient, QueryOutcome.success]) o).startblock
            = (runOutcomes (initCursor 0)
              [QueryOutcome.sizeLimit, QueryOutcome.transient, QueryOutcome.success]).startblock :=
  scan_cursor_invariant 0 [QueryOutcome.sizeLimit, QueryOutcome.transient, QueryOutcome.success]
    (by decide) (by simp [allFit, stepFits, step, shrink, advance, initCursor, u64,
      filterQueryBlockNums])

/-- C4.  When every log query succeeds, `blockInit <= blockFinal` and `blockFinal + 1000`
fits `uint64`, the scan loop of `fetchTrades` returns, it stops at a cursor with
`startblock > blockFinal`, and it has made exactly
`(blockFinal - blockInit) / 1000 + 1` queries. -/
theorem scan_query_count (env : Env) (s : UniswapHistoryScraper)
    (ps : UniswapHistoryPairScraper) (pair : UniswapPair) (blockInit blockFinal fuel : Nat)
    (hle : blockInit ≤ blockFinal) (hov : blockFinal + filterQueryBlockNums < u64)
    (hok : AllQueriesSucceed env pair.Address)
    (hfuel : (blockFinal - blockInit) / filterQueryBlockNums + 1 < fuel) :
    (scanLoop env s ps pair blockFinal fuel 0 (initCursor blockInit)).finished = true
      ∧ blockFinal
          < (scanLoop env s ps pair blockFinal fuel 0 (initCursor blockInit)).final.startblock
      ∧ (scanLoop env s ps pair blockFinal fuel 0 (initCursor blockInit)).queried.length
          = (blockFinal - blockInit) / filterQueryBlockNums + 1 := by
  have hinit : (initCursor blockInit).startblock ≤ blockFinal →
      (initCursor blockInit).endblock = (initCursor blockInit).startblock + filterQueryBlockNums := by
    intro _
    simp only [initCursor]
    apply Nat.mod_eq_of_lt
    unfold filterQueryBlockNums u64 at *
    omega
  have hrem : remaining blockFinal (initCursor blockInit).startblock
      = (blockFinal - blockInit) / filterQueryBlockNums + 1 := by
    simp [remaining, initCursor, hle]
  obtain ⟨hq, hfin, _, hgt⟩ := scanLoop_success env s ps pair blockFinal hov hok _ fuel 0
    (initCursor blockInit) hinit hrem hfuel
  refine ⟨hfin, hgt, ?_⟩
  rw [hq, List.length_map, List.length_range]

/-- C4 on the range `[0, 200]`: exactly one window is queried. -/
theorem scan_query_count_witness :
    (scanLoop sampleEnv sampleScraper samplePairScraper samplePair 200 3 0 (initCursor 0)).finished
        = true
      ∧ 200 < (scanLoop sampleEnv sampleScraper samplePairScraper samplePair 200 3 0
                (initCursor 0)).final.startblock
      ∧ (scanLoop sampleEnv sampleScraper samplePairScraper samplePair 200 3 0
            (initCursor 0)).queried.length = 1 :=
  scan_query_count sampleEnv sampleScraper samplePairScraper samplePair 0 200 3
    (by decide) (by decide) (fun _ _ _ => ⟨[], rfl⟩) (by decide)


/-! ## Trade emission -/

theorem GetPairByID_failure (env : Env) (num : Int) (h : (GetPairByID env num).2 ≠ none) :
    (GetPairByID env num).1 = emptyPair := by
  unfold GetPairByID at h ⊢
  cases hA : env.AllPairs num with
  | error e => simp
  | ok a =>
    simp only [hA] at h ⊢
    rcases hp : GetPairByAddress env a with ⟨pr, _ | e⟩
    · simp [hp] at h
    · simp

/-- C6 as stated fails.  The symbol `Ξ` has one character but two bytes, and Go's `len`
counts bytes: the worker of a pair `Ξ-BBB` is not skipped, it queries the window
`[0, 1000]` and sends a trade. -/
theorem fetchTrades_one_character_symbol_scanned :
    (GetPairByID greekEnv 0).1.Token0.Symbol.length < 2
      ∧ (fetchTrades greekEnv greekScraper 0 0 0 3).2.queried = [(0, 1000)]
      ∧ (fetchTrades greekEnv greekScraper 0 0 0 3).2.trades.length = 1 := by
  decide

/-- C6, amended.  For every worker index other than the hard-coded PanCakeSwap case,
`fetchTrades` returns without a log query, without a trade sent and with the session, its
recorded error included, unchanged, whenever `GetPairByID(i)` fails, or a token symbol of
the resolved pair is shorter than 2 bytes, or a symbol is blacklisted, or a token address
is blacklisted. -/
theorem fetchTrades_skips_unusable_pair (env : Env) (s : UniswapHistoryScraper) (i : Int)
    (blockInit blockFinal fuel : Nat)
    (hcase : ¬ (i = -1 ∧ s.exchangeName = "PanCakeSwap"))
    (h : (GetPairByID env i).2 ≠ none
      ∨ (GetPairByID env i).1.Token0.Symbol.utf8ByteSize < 2
      ∨ (GetPairByID env i).1.Token1.Symbol.utf8ByteSize < 2
      ∨ env.SymbolIsBlackListed (GetPairByID env i).1.Token0.Symbol = true
      ∨ env.SymbolIsBlackListed (GetPairByID env i).1.Token1.Symbol = true
      ∨ env.AddressIsBlacklisted (GetPairByID env i).1.Token0.Address = true
      ∨ env.AddressIsBlacklisted (GetPairByID env i).1.Token1.Address = true) :
    (fetchTrades env s i blockInit blockFinal fuel).2.queried = []
      ∧ (fetchTrades env s i blockInit blockFinal fuel).2.trades = []
      ∧ (fetchTrades env s i blockInit blockFinal fuel).2.finished = true
      ∧ (fetchTrades env s i blockInit blockFinal fuel).1 = s
      ∧ (fetchTrades env s i blockInit blockFinal fuel).1.error = s.error := by
  have hpair : workerPair env s i = (GetPairByID env i).1 := by
    unfold workerPair
    rw [if_neg hcase]
  have hskip : fetchTrades env s i blockInit blockFinal fuel = (s, skipped blockInit) := by
    unfold fetchTrades
    simp only [hpair]
    rcases h with h | h | h | h | h | h | h
    · have he := GetPairByID_failure env i h
      rw [he]
      rfl
    · rw [if_pos (Or.inl h)]
    · rw [if_pos (Or.inr h)]
    · split_ifs <;> simp_all
    · split_ifs <;> simp_all
    · split_ifs <;> simp_all
    · split_ifs <;> simp_all
  rw [hskip]
  exact ⟨rfl, rfl, rfl, rfl, rfl⟩

/-- The amended C6 on a chain whose factory cannot resolve the pair of index 0, although
the pool would log a swap in every window. -/
theorem fetchTrades_skips_unusable_pair_witness :
    (fetchTrades noPairEnv sampleScraper 0 0 5000 9).2.queried = []
      ∧ (fetchTrades noPairEnv sampleScraper 0 0 5000 9).2.trades = []
      ∧ (fetchTrades noPairEnv sampleScraper 0 0 5000 9).2.finished = true
      ∧ (fetchTrades noPairEnv sampleScraper 0 0 5000 9).1 = sampleScraper
      ∧ (fetchTrades noPairEnv sampleScraper 0 0 5000 9).1.error = sampleScraper.error :=
  fetchTrades_skips_unusable_pair noPairEnv sampleScraper 0 0 5000 9 (by decide)
    (Or.inl (by decide))

/-! ## Shutdown guard -/

/-- C7, the code at two calls in a row.  On a fresh session whose `shutdownDone` is
answered, the first `Close` returns the recorded error (`nil`) and leaves `closed` false;
the second call therefore passes the guard, closes both client handles once more and
panics on closing the closed `shutdown` channel, instead of returning the
`Already closed` error.  Without an answer on `shutdownDone` the first call never
returns, and a second call made meanwhile panics the same way.  No call of `Close`
changes `closed`. -/
theorem Close_second_call_reenters :
    (Close (NewUniswapHistoryScraper "Uniswap") true).2 = CloseResult.returned none
      ∧ (Close (NewUniswapHistoryScraper "Uniswap") true).1.closed = false
      ∧ (Close (Close (NewUniswapHistoryScraper "Uniswap") true).1 true).2 = CloseResult.panicked
      ∧ (Close (Close (NewUniswapHistoryScraper "Uniswap") true).1 true).1.handleOps
          = [HandleOp.wsClientClose, HandleOp.restClientClose, HandleOp.shutdownClose,
             HandleOp.wsClientClose, HandleOp.restClientClose]
      ∧ (Close (NewUniswapHistoryScraper "Uniswap") false).2 = CloseResult.blocked
      ∧ (Close (Close (NewUniswapHistoryScraper "Uniswap") false).1 false).2 = CloseResult.panicked
      ∧ ∀ (s : UniswapHistoryScraper) (ack : Bool), (Close s ack).1.closed = s.closed := by
  refine ⟨by decide, by decide, by decide, by decide, by decide, by decide, ?_⟩
  intro s ack
  simp only [Close]
  split_ifs <;> rfl

/-! ## Pair resolution -/

/-- C8 as stated fails.  On a pool whose `Token0` read fails while every other read
succeeds, `GetPairByAddress` returns a nil error and a populated pair, built on the zero
address in place of the unread token address. -/
theorem GetPairByAddress_token0_error_dropped :
    errOf (token0FailEnv.Token0 "0xP") ≠ none
      ∧ (GetPairByAddress token0FailEnv "0xP").2 = none
      ∧ (GetPairByAddress token0FailEnv "0xP").1 ≠ emptyPair
      ∧ (GetPairByAddress token0FailEnv "0xP").1.Token0.Address = zeroAddress
      ∧ (GetPairByAddress token0FailEnv "0xP").1.ForeignName = "BBB-BBB" := by
  decide

/-- C8, amended.  `GetPairByAddress` reads decimals and names at the token addresses it
obtained, the zero address standing in for a `Token0` or `Token1` read that failed.  It
returns a non-nil error and the empty pair whenever one of the two decimals reads or of
the two name reads fails.  Whenever it returns a nil error, these four reads succeeded,
the pair carries the given pool address and those token addresses, and `ForeignName`
equals `Token0.Symbol + "-" + Token1.Symbol`. -/
theorem GetPairByAddress_decimals_name_errors (env : Env) (pairAddress : String) :
    ((errOf (env.Decimals (valueOr (env.Token0 pairAddress) zeroAddress)) ≠ none
        ∨ errOf (env.Decimals (valueOr (env.Token1 pairAddress) zeroAddress)) ≠ none
        ∨ errOf (env.Name (valueOr (env.Token0 pairAddress) zeroAddress)) ≠ none
        ∨ errOf (env.Name (valueOr (env.Token1 pairAddress) zeroAddress)) ≠ none) →
      (GetPairByAddress env pairAddress).2 ≠ none
        ∧ (GetPairByAddress env pairAddress).1 = emptyPair)
    ∧ ((GetPairByAddress env pairAddress).2 = none →
      errOf (env.Decimals (valueOr (env.Token0 pairAddress) zeroAddress)) = none
        ∧ errOf (env.Decimals (valueOr (env.Token1 pairAddress) zeroAddress)) = none
        ∧ errOf (env.Name (valueOr (env.Token0 pairAddress) zeroAddress)) = none
        ∧ errOf (env.Name (valueOr (env.Token1 pairAddress) zeroAddress)) = none
        ∧ (GetPairByAddress env pairAddress).1.Address = pairAddress
        ∧ (GetPairByAddress env pairAddress).1.Token0.Address
            = valueOr (env.Token0 pairAddress) zeroAddress
        ∧ (GetPairByAddress env pairAddress).1.Token1.Address
            = valueOr (env.Token1 pairAddress) zeroAddress
        ∧ (GetPairByAddress env pairAddress).1.ForeignName
            = (GetPairByAddress env pairAddress).1.Token0.Symbol ++ "-"
              ++ (GetPairByAddress env pairAddress).1.Token1.Symbol) := by
  simp only [GetPairByAddress, GetDecimals, GetName]
  generalize valueOr (env.Token0 pairAddress) zeroAddress = address0
  generalize valueOr (env.Token1 pairAddress) zeroAddress = address1
  generalize valueOr (env.Symbol address0) "" = symbol0
  generalize valueOr (env.Symbol address1) "" = symbol1
  cases env.Decimals address0 <;> cases env.Decimals address1 <;>
  cases env.Name address0 <;> cases env.Name address1 <;>
  simp [errOf, valueOr]

/-- The amended C8 on the sample chains: the pool `0xQ`, whose token decimals cannot
be read, yields an error and the empty pair; the pool `0xP` resolves to `AAA-BBB`. -/
theorem GetPairByAddress_decimals_name_errors_witness :
    ((GetPairByAddress twoPoolEnv "0xQ").2 ≠ none
        ∧ (GetPairByAddress twoPoolEnv "0xQ").1 = emptyPair)
      ∧ (GetPairByAddress sampleEnv "0xP").1.ForeignName
          = (GetPairByAddress sampleEnv "0xP").1.Token0.Symbol ++ "-"
            ++ (GetPairByAddress sampleEnv "0xP").1.Token1.Symbol :=
  ⟨(GetPairByAddress_decimals_name_errors twoPoolEnv "0xQ").1 (Or.inl (by decide)),
   ((GetPairByAddress_decimals_name_errors sampleEnv "0xP").2 (by decide)).2.2.2.2.2.2.2⟩

/-- C9 as stated fails.  On a factory of two pools where the resolution of index 0
fails and that of index 1 succeeds, `GetAllPairs` returns two entries, the first being
the empty pair, whereas one entry per successfully resolved index would be a single
pair. -/
theorem GetAllPairs_keeps_failed_slot :
    (GetPairByID twoPoolEnv 0).2 ≠ none
      ∧ (GetPairByID twoPoolEnv 1).2 = none
      ∧ GetAllPairs twoPoolEnv = ([emptyPair, samplePair], none)
      ∧ successfullyResolved twoPoolEnv 2 = [samplePair]
      ∧ (GetAllPairs twoPoolEnv).1 ≠ successfullyResolved twoPoolEnv 2 := by
  decide

/-- C9, amended.  When the factory's pair count `n` is read successfully (and fits Go's
`int`), `GetAllPairs` returns a nil error and a list of exactly `n` entries, one per
index: the entry of an index whose `GetPairByID` succeeded is the normalized resolved
pair, and the entry of an index whose resolution failed is the empty pair. -/
theorem GetAllPairs_one_slot_per_index (env : Env) (n : Nat)
    (hn : env.AllPairsLength = Except.ok n) (_hfit : n < 2 ^ 63) :
    (GetAllPairs env).2 = none
      ∧ (GetAllPairs env).1.length = n
      ∧ ∀ index : Nat, index < n →
          ((GetPairByID env (Int.ofNat index)).2 = none →
              (GetAllPairs env).1[index]?
                = some (env.normalizeUniPair (GetPairByID env (Int.ofNat index)).1))
            ∧ ((GetPairByID env (Int.ofNat index)).2 ≠ none →
              (GetAllPairs env).1[index]? = some emptyPair) := by
  have hall : GetAllPairs env = ((List.range n).map (pairSlot env), none) := by
    unfold GetAllPairs
    rw [hn]
  rw [hall]
  refine ⟨rfl, by simp, ?_⟩
  intro index hindex
  have hget : ((List.range n).map (pairSlot env))[index]? = some (pairSlot env index) := by
    rw [List.getElem?_map, List.getElem?_range hindex]
    rfl
  simp only [hget]
  unfold pairSlot
  rcases hp : GetPairByID env (Int.ofNat index) with ⟨pr, _ | e⟩
  · simp
  · simp

/-- The amended C9 on the factory of two pools. -/
theorem GetAllPairs_one_slot_per_index_witness :
    (GetAllPairs twoPoolEnv).2 = none
      ∧ (GetAllPairs twoPoolEnv).1.length = 2
      ∧ ∀ index : Nat, index < 2 →
          ((GetPairByID twoPoolEnv (Int.ofNat index)).2 = none →
              (GetAllPairs twoPoolEnv).1[index]?
                = some (twoPoolEnv.normalizeUniPair (GetPairByID twoPoolEnv (Int.ofNat index)).1))
            ∧ ((GetPairByID twoPoolEnv (Int.ofNat index)).2 ≠ none →
              (GetAllPairs twoPoolEnv).1[index]? = some emptyPair) :=
  GetAllPairs_one_slot_per_index twoPoolEnv 2 rfl (by decide)

/-! ## Reverse pairs -/

/-- C10 as stated fails.  With the address of `Token0`, the quote token of the trade, in
`reversePairs` and that of `Token1` absent, the trade is sent as first built, base
`Token1` and quote `Token0`, although `dia.SwapTrade` would have exchanged the two. -/
theorem quote_listed_trade_sent_unswapped :
    Contains quoteListedEnv.reversePairs
        (buildTrade sampleScraper samplePairScraper samplePair
          (normalizeUniswapSwap quoteListedEnv sampleSwap).1 (F64.fin 2) (F64.fin 1)).QuoteToken.Address
        = true
      ∧ processSwap quoteListedEnv sampleScraper samplePairScraper samplePair sampleSwap
          = [buildTrade sampleScraper samplePairScraper samplePair
              (normalizeUniswapSwap quoteListedEnv sampleSwap).1 (F64.fin 2) (F64.fin 1)]
      ∧ (∀ t ∈ processSwap quoteListedEnv sampleScraper samplePairScraper samplePair sampleSwap,
          t.BaseToken = assetOf samplePair.Token1 ∧ t.QuoteToken = assetOf samplePair.Token0)
      ∧ (∀ tSwapped : Trade,
          quoteListedEnv.SwapTrade (buildTrade sampleScraper samplePairScraper samplePair
              (normalizeUniswapSwap quoteListedEnv sampleSwap).1 (F64.fin 2) (F64.fin 1))
            = Except.ok tSwapped →
          tSwapped ∉ processSwap quoteListedEnv sampleScraper samplePairScraper samplePair
            sampleSwap) := by
  refine ⟨by decide, by decide, ?_, ?_⟩
  · intro t ht
    have hp : processSwap quoteListedEnv sampleScraper samplePairScraper samplePair sampleSwap
        = [buildTrade sampleScraper samplePairScraper samplePair
            (normalizeUniswapSwap quoteListedEnv sampleSwap).1 (F64.fin 2) (F64.fin 1)] := by
      decide
    rw [hp, List.mem_singleton] at ht
    subst ht
    exact ⟨rfl, rfl⟩
  · intro tSwapped h
    have hs : quoteListedEnv.SwapTrade (buildTrade sampleScraper samplePairScraper samplePair
        (normalizeUniswapSwap quoteListedEnv sampleSwap).1 (F64.fin 2) (F64.fin 1))
        = Except.ok { buildTrade sampleScraper samplePairScraper samplePair
            (normalizeUniswapSwap quoteListedEnv sampleSwap).1 (F64.fin 2) (F64.fin 1) with
            BaseToken := assetOf samplePair.Token0, QuoteToken := assetOf samplePair.Token1,
            Price := F64.inv (F64.fin 2) } := rfl
    have hp : processSwap quoteListedEnv sampleScraper samplePairScraper samplePair sampleSwap
        = [buildTrade sampleScraper samplePairScraper samplePair
            (normalizeUniswapSwap quoteListedEnv sampleSwap).1 (F64.fin 2) (F64.fin 1)] := by
      decide
    rw [hs] at h
    injection h with h
    subst h
    rw [hp, List.mem_singleton]
    intro heq
    have hb := congrArg Trade.BaseToken heq
    revert hb
    decide

/-- C10, amended.  Every trade is first built with `BaseToken = pair.Token1` and
`QuoteToken = pair.Token0`.  It is replaced by the result of `dia.SwapTrade` exactly when
the address of its base token, `pair.Token1`, is in `reversePairs` and `dia.SwapTrade`
returns no error: for a positive price the swapped trade is then the one sent, and when
that address is not in the list, or `dia.SwapTrade` fails, the trade is sent as built. -/
theorem base_listed_trade_sent_swapped (env : Env) (s : UniswapHistoryScraper)
    (ps : UniswapHistoryPairScraper) (pair : UniswapPair) (rawSwap : UniswapV2PairSwap)
    (t : Trade)
    (ht : t = buildTrade s ps pair (normalizeUniswapSwap env rawSwap).1
        (env.getSwapData (normalizeUniswapSwap env rawSwap).1).1
        (env.getSwapData (normalizeUniswapSwap env rawSwap).1).2)
    (hprice : t.Price.gtZero = true) :
    t.BaseToken = assetOf pair.Token1
      ∧ t.QuoteToken = assetOf pair.Token0
      ∧ (∀ tSwapped : Trade,
          Contains env.reversePairs t.BaseToken.Address = true →
          env.SwapTrade t = Except.ok tSwapped →
          processSwap env s ps pair rawSwap = [tSwapped])
      ∧ (Contains env.reversePairs t.BaseToken.Address = false →
          processSwap env s ps pair rawSwap = [t])
      ∧ (∀ e : String, env.SwapTrade t = Except.error e →
          processSwap env s ps pair rawSwap = [t]) := by
  subst ht
  have hp : (env.getSwapData (normalizeUniswapSwap env rawSwap).1).1.gtZero = true := hprice
  have haddr : (buildTrade s ps pair (normalizeUniswapSwap env rawSwap).1
      (env.getSwapData (normalizeUniswapSwap env rawSwap).1).1
      (env.getSwapData (normalizeUniswapSwap env rawSwap).1).2).BaseToken.Address
        = pair.Token1.Address := rfl
  refine ⟨rfl, rfl, ?_, ?_, ?_⟩
  · intro tSwapped hin hswap
    rw [haddr] at hin
    simp only [processSwap, hp, if_true, reverseIfListed, hin, hswap]
  · intro hout
    rw [haddr] at hout
    simp only [processSwap, hp, if_true, reverseIfListed, hout]
    simp
  · intro e herr
    simp only [processSwap, hp, if_true, reverseIfListed, herr]
    split_ifs <;> rfl

/-- The amended C10 on the sample chain with the base token's address in the reverse
list: the trade sent has base `Token0`, quote `Token1` and the inverted price. -/
theorem base_listed_trade_sent_swapped_witness :
    processSwap baseListedEnv sampleScraper samplePairScraper samplePair sampleSwap
      = [{ buildTrade sampleScraper samplePairScraper samplePair
            (normalizeUniswapSwap baseListedEnv sampleSwap).1 (F64.fin 2) (F64.fin 1) with
            BaseToken := assetOf samplePair.Token0, QuoteToken := assetOf samplePair.Token1,
            Price := F64.inv (F64.fin 2) }] :=
  (base_listed_trade_sent_swapped baseListedEnv sampleScraper samplePairScraper samplePair
    sampleSwap _ rfl (by decide)).2.2.1 _ (by decide) rfl

/-! ## Registration -/

theorem scanLoop_finished_of_exit (env : Env) (s : UniswapHistoryScraper)
    (ps : UniswapHistoryPairScraper) (pair : UniswapPair) (blockFinal fuel k : Nat) (c : Cursor)
    (h : ¬ c.startblock ≤ blockFinal) (hfuel : 0 < fuel) :
    (scanLoop env s ps pair blockFinal fuel k c).finished = true := by
  obtain ⟨f, rfl⟩ : ∃ f, fuel = f + 1 := ⟨fuel - 1, by omega⟩
  simp [scanLoop, h]

theorem scanLoop_finished_step (env : Env) (s : UniswapHistoryScraper)
    (ps : UniswapHistoryPairScraper) (pair : UniswapPair) (blockFinal fuel k : Nat) (c : Cursor)
    (h : c.startblock ≤ blockFinal) :
    (scanLoop env s ps pair blockFinal (fuel + 1) k c).finished
      = (scanLoop env s ps pair blockFinal fuel (k + 1)
          (step c (classify (env.FilterSwap k pair.Address c.startblock c.endblock)))).finished := by
  simp [scanLoop, h]

/-- Once every query succeeds, a scan standing at a full-width window returns. -/
theorem scanLoop_finishes_full_width (env : Env) (s : UniswapHistoryScraper)
    (ps : UniswapHistoryPairScraper) (pair : UniswapPair) (blockFinal : Nat)
    (hov : blockFinal + filterQueryBlockNums < u64) :
    ∀ (n fuel k : Nat) (c : Cursor),
      QueriesSucceedFrom env pair.Address k →
      (c.startblock ≤ blockFinal → c.endblock = c.startblock + filterQueryBlockNums) →
      remaining blockFinal c.startblock = n → n < fuel →
      (scanLoop env s ps pair blockFinal fuel k c).finished = true := by
  intro n
  induction n with
  | zero =>
    intro fuel k c _ _ hrem hfuel
    have hgt : ¬ c.startblock ≤ blockFinal := by
      intro hle
      simp [remaining, hle] at hrem
    exact scanLoop_finished_of_exit env s ps pair blockFinal fuel k c hgt hfuel
  | succ n ih =>
    intro fuel k c hok hc hrem hfuel
    obtain ⟨f, rfl⟩ : ∃ f, fuel = f + 1 := ⟨fuel - 1, by omega⟩
    obtain ⟨hle, hrem1⟩ := remaining_advance blockFinal c.startblock n hrem
    have he := hc hle
    rw [scanLoop_finished_step env s ps pair blockFinal f k c hle,
      classify_of_succeed _ (hok k c.startblock c.endblock (Nat.le_refl k))]
    have hs : (advance c).startblock = c.startblock + filterQueryBlockNums := by
      simp [advance, he]
    apply ih f (k + 1) (advance c)
    · intro j a b hj
      exact hok j a b (by omega)
    · intro h1
      rw [hs] at h1 ⊢
      simp only [advance, he]
      apply Nat.mod_eq_of_lt
      unfold filterQueryBlockNums u64 at *
      omega
    · rw [hs]; exact hrem1
    · omega

/-- A pass of the loop body keeps the window between one block and the default width,
as long as `blockFinal + 2000` fits `uint64`. -/
theorem step_keeps_width (blockFinal : Nat) (c : Cursor) (o : QueryOutcome)
    (hov : blockFinal + 2 * filterQueryBlockNums < u64)
    (hle : c.startblock ≤ blockFinal)
    (h : c.startblock ≤ c.endblock ∧ c.endblock ≤ c.startblock + filterQueryBlockNums) :
    (step c o).startblock ≤ (step c o).endblock
      ∧ (step c o).endblock ≤ (step c o).startblock + filterQueryBlockNums := by
  obtain ⟨h1, h2⟩ := h
  cases o with
  | success =>
    simp only [step, advance]
    unfold filterQueryBlockNums u64 at *
    omega
  | sizeLimit =>
    simp only [step, shrink]
    unfold filterQueryBlockNums u64 at *
    omega
  | transient => exact ⟨h1, h2⟩

/-- Once every query succeeds, a scan standing at any window of at most the default
width returns: the first success restores the full width. -/
theorem scanLoop_finishes_after_success (env : Env) (s : UniswapHistoryScraper)
    (ps : UniswapHistoryPairScraper) (pair : UniswapPair) (blockFinal k : Nat) (c : Cursor)
    (hov : blockFinal + 2 * filterQueryBlockNums < u64)
    (hok : QueriesSucceedFrom env pair.Address k)
    (h : c.startblock ≤ c.endblock ∧ c.endblock ≤ c.startblock + filterQueryBlockNums) :
    ∃ N : Nat, ∀ fuel : Nat, N < fuel →
      (scanLoop env s ps pair blockFinal fuel k c).finished = true := by
  have hov1 : blockFinal + filterQueryBlockNums < u64 := by
    unfold filterQueryBlockNums u64 at *
    omega
  by_cases hle : c.startblock ≤ blockFinal
  · refine ⟨remaining blockFinal (advance c).startblock + 1, ?_⟩
    intro fuel hfuel
    obtain ⟨f, rfl⟩ : ∃ f, fuel = f + 1 := ⟨fuel - 1, by omega⟩
    rw [scanLoop_finished_step env s ps pair blockFinal f k c hle,
      classify_of_succeed _ (hok k c.startblock c.endblock (Nat.le_refl k))]
    apply scanLoop_finishes_full_width env s ps pair blockFinal hov1 _ f (k + 1) (advance c)
    · intro j a b hj
      exact hok j a b (by omega)
    · intro _
      simp only [advance]
      apply Nat.mod_eq_of_lt
      unfold filterQueryBlockNums u64 at *
      omega
    · rfl
    · omega
  · exact ⟨0, fun fuel hfuel =>
      scanLoop_finished_of_exit env s ps pair blockFinal fuel k c hle hfuel⟩

/-- When all queries from number `k + failures` on succeed, the scan returns, whatever
the earlier queries answered. -/
theorem scanLoop_terminates_after_failures (env : Env) (s : UniswapHistoryScraper)
    (ps : UniswapHistoryPairScraper) (pair : UniswapPair) (blockFinal : Nat)
    (hov : blockFinal + 2 * filterQueryBlockNums < u64) :
    ∀ (failures k : Nat) (c : Cursor),
      QueriesSucceedFrom env pair.Address (k + failures) →
      (c.startblock ≤ c.endblock ∧ c.endblock ≤ c.startblock + filterQueryBlockNums) →
      ∃ N : Nat, ∀ fuel : Nat, N < fuel →
        (scanLoop env s ps pair blockFinal fuel k c).finished = true := by
  intro failures
  induction failures with
  | zero =>
    intro k c hok h
    exact scanLoop_finishes_after_success env s ps pair blockFinal k c hov hok h
  | succ m ih =>
    intro k c hok h
    by_cases hle : c.startblock ≤ blockFinal
    · obtain ⟨N, hN⟩ := ih (k + 1)
        (step c (classify (env.FilterSwap k pair.Address c.startblock c.endblock)))
        (by
          intro j a b hj
          exact hok j a b (by omega))
        (step_keeps_width blockFinal c _ hov hle h)
      refine ⟨N + 1, ?_⟩
      intro fuel hfuel
      obtain ⟨f, rfl⟩ : ∃ f, fuel = f + 1 := ⟨fuel - 1, by omega⟩
      rw [scanLoop_finished_step env s ps pair blockFinal f k c hle]
      exact hN f (by omega)
    · exact ⟨0, fun fuel hfuel =>
        scanLoop_finished_of_exit env s ps pair blockFinal fuel k c hle hfuel⟩

/-- C12 as stated fails.  Ten size-limit errors in a row bring the first window of a scan
from block 0 down to the single block `[0, 0]`; the query of that window succeeds and the
next window is `[0, 1000]`: its `startblock` is 0 again, not strictly greater, and block 0
is queried once more. -/
theorem success_on_single_block_window_stalls :
    runOutcomes (initCursor 0) (List.replicate 10 QueryOutcome.sizeLimit)
        = { startblock := 0, endblock := 0 }
      ∧ step { startblock := 0, endblock := 0 } QueryOutcome.success
          = { startblock := 0, endblock := 1000 }
      ∧ ¬ ((runOutcomes (initCursor 0) (List.replicate 10 QueryOutcome.sizeLimit)).startblock
            < (step (runOutcomes (initCursor 0) (List.replicate 10 QueryOutcome.sizeLimit))
                QueryOutcome.success).startblock)
      ∧ (fetchTrades sizeLimitEnv sampleScraper 0 0 1000 20).2.queried
          = [(0, 1000), (0, 500), (0, 250), (0, 125), (0, 62), (0, 31), (0, 15), (0, 7), (0, 3),
             (0, 1), (0, 0), (0, 1000), (1000, 2000)]
      ∧ (fetchTrades sizeLimitEnv sampleScraper 0 0 1000 20).2.finished = true := by
  decide

/-- C12, amended.  Take a loop state reached from loop entry by any sequence of query
outcomes without `uint64` overflow.  A successful query moves `startblock` to the
`endblock` just queried, never backwards: strictly forward when the window had
`startblock < endblock`, and not at all when it was a single block; a second success in
a row then moves it strictly forward in every case.  And whenever all queries from some number on succeed,
the scan loop returns, given enough fuel. -/
theorem scan_progress_after_success (env : Env) (s : UniswapHistoryScraper)
    (ps : UniswapHistoryPairScraper) (pair : UniswapPair) (blockInit blockFinal failures : Nat)
    (os : List QueryOutcome)
    (hle : blockInit ≤ blockFinal)
    (hov : blockFinal + 2 * filterQueryBlockNums < u64)
    (hfit : allFit (initCursor blockInit) os)
    (hok : QueriesSucceedFrom env pair.Address failures) :
    (step (runOutcomes (initCursor blockInit) os) QueryOutcome.success).startblock
        = (runOutcomes (initCursor blockInit) os).endblock
      ∧ (runOutcomes (initCursor blockInit) os).startblock
          ≤ (step (runOutcomes (initCursor blockInit) os) QueryOutcome.success).startblock
      ∧ ((runOutcomes (initCursor blockInit) os).startblock
            < (runOutcomes (initCursor blockInit) os).endblock →
          (runOutcomes (initCursor blockInit) os).startblock
            < (step (runOutcomes (initCursor blockInit) os) QueryOutcome.success).startblock)
      ∧ ((runOutcomes (initCursor blockInit) os).startblock
            = (runOutcomes (initCursor blockInit) os).endblock →
          (step (runOutcomes (initCursor blockInit) os) QueryOutcome.success).startblock
            = (runOutcomes (initCursor blockInit) os).startblock)
      ∧ (stepFits (runOutcomes (initCursor blockInit) os) QueryOutcome.success →
          (runOutcomes (initCursor blockInit) os).startblock
            < (step (step (runOutcomes (initCursor blockInit) os) QueryOutcome.success)
                QueryOutcome.success).startblock)
      ∧ ∃ N : Nat, ∀ fuel : Nat, N < fuel →
          (scanLoop env s ps pair blockFinal fuel 0 (initCursor blockInit)).finished = true := by
  have h0 : (initCursor blockInit).startblock ≤ (initCursor blockInit).endblock
      ∧ (initCursor blockInit).endblock < u64 := by
    simp only [initCursor]
    unfold filterQueryBlockNums u64 at *
    omega
  have hinv := runOutcomes_invariant os _ h0 hfit
  refine ⟨rfl, hinv.1, ?_, ?_, ?_, ?_⟩
  · intro h
    exact h
  · intro h
    exact h.symm
  · intro hstep
    simp only [stepFits] at hstep
    simp only [step, advance]
    rw [Nat.mod_eq_of_lt hstep]
    unfold filterQueryBlockNums at *
    omega
  · apply scanLoop_terminates_after_failures env s ps pair blockFinal hov failures 0
      (initCursor blockInit)
    · intro j a b hj
      exact hok j a b (by omega)
    · simp only [initCursor]
      unfold filterQueryBlockNums u64 at *
      omega

/-- The amended C12 on the chain whose node fails the first ten queries, for the range
`[0, 1000]` and the state after a size-limit error and a transient error. -/
theorem scan_progress_after_success_witness :
    (runOutcomes (initCursor 0) [QueryOutcome.sizeLimit, QueryOutcome.transient]).startblock
        < (step (runOutcomes (initCursor 0) [QueryOutcome.sizeLimit, QueryOutcome.transient])
            QueryOutcome.success).startblock
      ∧ ∃ N : Nat, ∀ fuel : Nat, N < fuel →
          (scanLoop sizeLimitEnv sampleScraper samplePairScraper samplePair 1000 fuel 0
            (initCursor 0)).finished = true :=
  ⟨(scan_progress_after_success sizeLimitEnv sampleScraper samplePairScraper samplePair 0 1000 10
      [QueryOutcome.sizeLimit, QueryOutcome.transient] (by decide) (by decide)
      (by simp [allFit, stepFits, step, shrink, initCursor, u64, filterQueryBlockNums])
      (fun j _ _ hj => ⟨[sampleSwap], by simp [sizeLimitEnv]; omega⟩)).2.2.1 (by decide),
   (scan_progress_after_success sizeLimitEnv sampleScraper samplePairScraper samplePair 0 1000 10
      [QueryOutcome.sizeLimit, QueryOutcome.transient] (by decide) (by decide)
      (by simp [allFit, stepFits, step, shrink, initCursor, u64, filterQueryBlockNums])
      (fun j _ _ hj => ⟨[sampleSwap], by simp [sizeLimitEnv]; omega⟩)).2.2.2.2.2⟩

end UniswapHistory
